import Mathlib

/-!
Verification development for the block-structure segmentation engine of a
Markdown-family parsing library (list segmenter, fenced directive matcher,
list renderer).  The Python sources under src/ are embedded shallowly:
strings become `List Char`, regular expressions become explicit matching
functions translated pattern-by-pattern, mutable parser state becomes an
explicit `BlockState` record that is threaded through, and `Optional[int]`
results become `Option` values.  Functions named after the source keep the
source's control flow; helpers that live outside the provided sources
(core cursor/state operations, tab expansion, the generic dispatcher) are
modelled from the design specification and are marked as such in their
doc comments.
-/

/-- Characters counted as horizontal blank space by the source patterns. -/
def isBlankChar (c : Char) : Bool := c = ' ' ∨ c = '\t'

/-- Characters counted as whitespace by Python's str.strip. -/
def isWsChar (c : Char) : Bool := c = ' ' ∨ c = '\t' ∨ c = '\n' ∨ c = '\r'

/-- Python `' ' * n` where n may be a negative int (empty string then). -/
def pyRepeat (c : Char) (n : Int) : List Char :=
  List.replicate n.toNat c

/-- Python slice `l[i:]` semantics, including negative start indexes. -/
def pySliceFrom (l : List Char) (i : Int) : List Char :=
  if 0 ≤ i then l.drop i.toNat
  else l.drop (l.length - min l.length i.natAbs)

/-- Python slice `l[i:j]` for nonnegative bounds (clamped at the length). -/
def pySlice (l : List Char) (i j : Nat) : List Char :=
  (l.take j).drop i

/-- Does `l` start with `p` (Python str.startswith). -/
def listStartsWith (l p : List Char) : Bool := l.take p.length = p

/-- Split a character list at every occurrence of `sep` (Python str.split). -/
def splitChar (sep : Char) : List Char → List (List Char)
  | [] => [[]]
  | c :: rest =>
      let r := splitChar sep rest
      if c = sep then [] :: r
      else match r with
        | [] => [[c]]
        | x :: xs => (c :: x) :: xs

/-- Join pieces with a separator character (inverse of `splitChar`). -/
def joinSep (sep : Char) : List (List Char) → List Char
  | [] => []
  | [x] => x
  | x :: xs => x ++ sep :: joinSep sep xs

/-- Python str.splitlines for newline-only text. -/
def splitlines (t : List Char) : List (List Char) :=
  if t = [] then []
  else
    let parts := splitChar '\n' t
    if t.getLast? = some '\n' then parts.dropLast else parts

/-- Python str.strip: trim whitespace from both ends. -/
def stripAll (t : List Char) : List Char :=
  ((t.dropWhile isWsChar).reverse.dropWhile isWsChar).reverse

/-- Is the text blank after stripping (Python `not text.strip()`). -/
def blankOnly (t : List Char) : Bool := stripAll t = []

/-- Modelled from the spec: util.strip_end (outside src) removes the
trailing newline run of a text block before a sub-parse or after
re-serialization. -/
def strip_end (t : List Char) : List Char :=
  (t.reverse.dropWhile (· = '\n')).reverse

/-- Digit-accumulation loop for natChars, fuelled for structural
recursion. -/
def natCharsGo : Nat → Nat → List Char → List Char
  | 0, _, acc => acc
  | fuel + 1, m, acc =>
      let d := Char.ofNat (48 + m % 10)
      if m < 10 then d :: acc else natCharsGo fuel (m / 10) (d :: acc)

/-- Decimal digits of a natural number, most significant first (models
Python `str(n)` on a nonnegative int). -/
def natChars (n : Nat) : List Char := natCharsGo (n + 1) n []

/-- Numeric value of a digit string (models Python `int(s)`). -/
def digitsVal (l : List Char) : Nat :=
  l.foldl (fun acc c => acc * 10 + (c.toNat - 48)) 0

/-- Modelled from the spec (§6): tab normalization at 4-column stops.  The
repository's util.expand_tab / expand_leading_tab live outside src; they
substitute a run of up to three spaces followed by a tab at a line start
with spaces up to the given stop, and are the identity on tab-free text. -/
def expandTabLine (width : Nat) (line : List Char) : List Char :=
  let sp := line.takeWhile (· = ' ')
  if sp.length ≤ 3 ∧ (line.drop sp.length).head? = some '\t' then
    sp ++ List.replicate (width - sp.length) ' ' ++ line.drop (sp.length + 1)
  else line

/-- Modelled from the spec: util.expand_tab (outside src), multiline. -/
def expand_tab (t : List Char) : List Char :=
  joinSep '\n' ((splitChar '\n' t).map (expandTabLine 4))

/-- Modelled from the spec: util.expand_leading_tab (outside src). -/
def expand_leading_tab (t : List Char) (width : Nat) : List Char :=
  joinSep '\n' ((splitChar '\n' t).map (expandTabLine width))

/-- Attrs of a list token: nesting depth, ordered flag, and the optional
start value (present only under the condition coded in parse_list). -/
structure ListAttrs where
  depth : Nat
  ordered : Bool
  start : Option Nat
deriving Repr, DecidableEq

/-- Token tree produced by the block parser (§3 of the spec).  The list
token keeps `tight` and `bullet` beside the attrs record, mirroring the
top-level dict keys used by the source. -/
inductive Token where
  | paragraph (text : List Char)
  | block_text (text : List Char)
  | blank_line
  | other (name : String)
  | list_item (children : List Token)
  | list (attrs : ListAttrs) (bullet : Char) (tight : Bool) (children : List Token)
deriving Repr

/-- Modelled from the spec (§3 Cursor/State): source text, scan cursor,
end bound, recursion depth and the accumulated token sequence. -/
structure BlockState where
  src : List Char
  cursor : Nat
  cursorMax : Nat
  depth : Nat
  tokens : List Token
deriving Repr

/-- Modelled from the spec: a fresh state over the whole input. -/
def initState (src : List Char) : BlockState :=
  ⟨src, 0, src.length, 0, []⟩

/-- Modelled from the spec: BlockState.child_state builds a fresh state
on the item's text one nesting level deeper. -/
def childState (st : BlockState) (text : List Char) : BlockState :=
  ⟨text, 0, text.length, st.depth + 1, []⟩

/-- Modelled from the spec: BlockState.find_line_end returns the offset
just past the newline that ends the current line, or the end bound. -/
def findLineEnd (st : BlockState) : Nat :=
  let rest := st.src.drop st.cursor
  match (rest.takeWhile (· ≠ '\n')).length with
  | n => if st.cursor + n < st.src.length then st.cursor + n + 1 else st.src.length

/-- Modelled from the spec: BlockState.get_text slices src from the
cursor up to (clamped) pos. -/
def getText (st : BlockState) (pos : Nat) : List Char :=
  pySlice st.src st.cursor pos

/-- The BLANK_LINE pattern used by the block parser (outside src,
modelled from the spec): optional horizontal blanks then a newline,
anchored at the start of the examined span. -/
def blankMatch (line : List Char) : Bool :=
  (line.dropWhile isBlankChar).head? = some '\n'

/-- Modelled from the spec (§4.1): BlockState.append_paragraph lets an
in-progress paragraph absorb the current line; it returns the new end
position when the last token is a paragraph and declines otherwise. -/
def appendParagraph (st : BlockState) : Option (BlockState × Nat) :=
  match st.tokens.getLast? with
  | some (Token.paragraph t) =>
      let pos := findLineEnd st
      let line := (getText st pos).takeWhile (· ≠ '\n')
      some (⟨st.src, pos, st.cursorMax, st.depth,
             st.tokens.dropLast ++ [Token.paragraph (t ++ '\n' :: line)]⟩, pos)
  | _ => none

/-- Insert a token at an index (Python list.insert). -/
def insertAt (i : Nat) (t : Token) (l : List Token) : List Token :=
  l.take i ++ t :: l.drop i

/-- Result of matching LIST_PATTERN or the compiled list-item pattern at a
line start: the three capture groups and the absolute end offset of the
match (the position of the line's end, before its newline). -/
structure ListMatch where
  spaces : List Char
  marker : List Char
  text : List Char
  endPos : Nat
deriving Repr, DecidableEq

/-- Match the trailing group `[ \t]*|[ \t].+` of the list patterns against
the rest of the line: it succeeds when the rest is empty or begins with a
blank, capturing the whole rest of the line. -/
def listTextGroup (rest : List Char) : Option (List Char) :=
  match rest with
  | [] => some []
  | c :: _ => if isBlankChar c then some rest else none

/-- Match a list marker `[*+-]|\d{1,9}[.)]` at the head of `l`,
returning the marker literal. -/
def matchListMarker (l : List Char) : Option (List Char) :=
  match l with
  | [] => none
  | c :: rest =>
      if c = '*' ∨ c = '+' ∨ c = '-' then some [c]
      else
        let ds := (c :: rest).takeWhile Char.isDigit
        if 1 ≤ ds.length ∧ ds.length ≤ 9 then
          match (c :: rest).drop ds.length with
          | d :: _ => if d = '.' ∨ d = ')' then some (ds ++ [d]) else none
          | [] => none
        else none

/-- Embeds LIST_PATTERN from src/mistune/list_parser.py, anchored at a
line start `pos`, with the leading-space bound `maxIndent` standing for
the `{0,3}` quantifier (narrowed by the item scanner's substitution). -/
def matchListPattern (src : List Char) (pos : Nat) (maxIndent : Nat) : Option ListMatch :=
  let rest := src.drop pos
  let line := rest.takeWhile (· ≠ '\n')
  let sp := line.takeWhile (· = ' ')
  if maxIndent < sp.length then none
  else
    match matchListMarker (line.drop sp.length) with
    | none => none
    | some marker =>
        match listTextGroup (line.drop (sp.length + marker.length)) with
        | none => none
        | some text => some ⟨sp, marker, text, pos + line.length⟩

/-- The bullet sub-patterns produced by _get_list_bullet. -/
inductive BulletPat where
  | dotNum
  | parenNum
  | plusLit
  | starLit
  | underscoreLit
deriving Repr, DecidableEq

/-- Embeds _get_list_bullet from src/mistune/list_parser.py: for '.'
digits then a dot, for ')' digits then a paren, for '*' a literal plus,
for '+' a literal star, otherwise a literal underscore. -/
def _get_list_bullet (c : Char) : BulletPat :=
  if c = '.' then BulletPat.dotNum
  else if c = ')' then BulletPat.parenNum
  else if c = '*' then BulletPat.plusLit
  else if c = '+' then BulletPat.starLit
  else BulletPat.underscoreLit

/-- Match one of the bullet sub-patterns at the head of `l`:
dotNum is `\d{1,9}\.`, parenNum is `\d{0,9}\)`, the rest are literals. -/
def matchBullet (b : BulletPat) (l : List Char) : Option (List Char) :=
  match b with
  | BulletPat.dotNum =>
      let ds := l.takeWhile Char.isDigit
      if 1 ≤ ds.length ∧ ds.length ≤ 9 then
        match l.drop ds.length with
        | '.' :: _ => some (ds ++ ['.'])
        | _ => none
      else none
  | BulletPat.parenNum =>
      let ds := l.takeWhile Char.isDigit
      if ds.length ≤ 9 then
        match l.drop ds.length with
        | ')' :: _ => some (ds ++ [')'])
        | _ => none
      else none
  | BulletPat.plusLit => match l with | '+' :: _ => some ['+'] | _ => none
  | BulletPat.starLit => match l with | '*' :: _ => some ['*'] | _ => none
  | BulletPat.underscoreLit => match l with | '_' :: _ => some ['_'] | _ => none

/-- Embeds the pattern built by _compile_list_item_pattern, anchored at a
line start: `^( {0,L})(bullet)([ \t]*|[ \t][^\n]+)$` with L the
leading width clamped at 3. -/
def matchListItem (src : List Char) (pos : Nat) (b : BulletPat) (leadingWidth : Nat) : Option ListMatch :=
  let lw := if 3 < leadingWidth then 3 else leadingWidth
  let line := (src.drop pos).takeWhile (· ≠ '\n')
  let sp := line.takeWhile (· = ' ')
  if lw < sp.length then none
  else
    match matchBullet b (line.drop sp.length) with
    | none => none
    | some marker =>
        match listTextGroup (line.drop (sp.length + marker.length)) with
        | none => none
        | some text => some ⟨sp, marker, text, pos + line.length⟩

/-- Modelled from the spec: the thematic-break block pattern (its regex
lives in the block parser outside src): up to `ind` leading spaces, then
at least three of the same `-`, `_` or `*` interleaved with blanks to the
end of the line. -/
def matchThematicBreak (src : List Char) (pos : Nat) (ind : Nat) : Bool :=
  let line := (src.drop pos).takeWhile (· ≠ '\n')
  let sp := line.takeWhile (· = ' ')
  if ind < sp.length then false
  else
    let r := line.drop sp.length
    [('-' : Char), '_', '*'].any fun c =>
      let core := r.filter (fun x => ¬ isBlankChar x)
      3 ≤ core.length ∧ core.all (· = c)

/-- Modelled from the spec: the fenced-code opening pattern (outside src):
up to `ind` leading spaces then a run of at least three backticks or
tildes. -/
def matchFencedCode (src : List Char) (pos : Nat) (ind : Nat) : Bool :=
  let line := (src.drop pos).takeWhile (· ≠ '\n')
  let sp := line.takeWhile (· = ' ')
  if ind < sp.length then false
  else
    let r := line.drop sp.length
    3 ≤ (r.takeWhile (· = '`')).length ∨ 3 ≤ (r.takeWhile (· = '~')).length

/-- Modelled from the spec: the ATX heading pattern (outside src): up to
`ind` leading spaces, one to six hashes, then a blank or the line end. -/
def matchAtxHeading (src : List Char) (pos : Nat) (ind : Nat) : Bool :=
  let line := (src.drop pos).takeWhile (· ≠ '\n')
  let sp := line.takeWhile (· = ' ')
  if ind < sp.length then false
  else
    let hs := (line.drop sp.length).takeWhile (· = '#')
    (1 ≤ hs.length && hs.length ≤ 6) &&
      (match (line.drop (sp.length + hs.length)).head? with
       | none => true
       | some c => isBlankChar c)

/-- Modelled from the spec: the block-quote pattern (outside src). -/
def matchBlockQuote (src : List Char) (pos : Nat) (ind : Nat) : Bool :=
  let line := (src.drop pos).takeWhile (· ≠ '\n')
  let sp := line.takeWhile (· = ' ')
  if ind < sp.length then false
  else (line.drop sp.length).head? = some '>'

/-- Modelled from the spec: the block-HTML pattern (outside src). -/
def matchBlockHtml (src : List Char) (pos : Nat) (ind : Nat) : Bool :=
  let line := (src.drop pos).takeWhile (· ≠ '\n')
  let sp := line.takeWhile (· = ' ')
  if ind < sp.length then false
  else (line.drop sp.length).head? = some '<'

/-- Outcome of the scanner regex compiled in _parse_list_item: the
alternation order of its named groups is thematic_break, fenced_code,
list_item, atx_heading, block_quote, block_html, list. -/
inductive ScRes where
  | item (g : ListMatch)
  | listRule
  | otherBlock (name : String)
deriving Repr

/-- Embeds the scanner regex `sc` of _parse_list_item, anchored at the
state's cursor with the `(?<=\n)` lookbehind; `itemB`/`leadingWidth`
parametrize the inserted list-item pattern and `otherInd` stands for the
indent substituted into the other block patterns. -/
def scMatch (src : List Char) (cursor : Nat) (itemB : BulletPat)
    (leadingWidth : Nat) (otherInd : Nat) : Option ScRes :=
  if cursor = 0 ∨ src.get? (cursor - 1) ≠ some '\n' then none
  else if matchThematicBreak src cursor otherInd then some (ScRes.otherBlock "thematic_break")
  else if matchFencedCode src cursor otherInd then some (ScRes.otherBlock "fenced_code")
  else
    match matchListItem src cursor itemB leadingWidth with
    | some g => some (ScRes.item g)
    | none =>
        if matchAtxHeading src cursor otherInd then some (ScRes.otherBlock "atx_heading")
        else if matchBlockQuote src cursor otherInd then some (ScRes.otherBlock "block_quote")
        else if matchBlockHtml src cursor otherInd then some (ScRes.otherBlock "block_html")
        else if (matchListPattern src cursor otherInd).isSome then some ScRes.listRule
        else none

/-- Embeds _compile_continue_width from src/mistune/list_parser.py.  The
continuation width is an Int because the source subtracts the measured
space width from the leading width. -/
def _compile_continue_width (text : List Char) (leading_width : Nat) : List Char × Int :=
  let text := expand_tab text
  let text := expand_leading_tab text 3
  let ws := text.takeWhile isWsChar
  if ws.length < text.length then
    let space_width : Int := if listStartsWith text (pyRepeat ' ' 6) then 2 else (ws.length : Int)
    (pySliceFrom text (space_width - 1) ++ ['\n'], (leading_width : Int) - space_width)
  else
    ([' '], (leading_width : Int) - 0)

/-- Embeds _clean_list_item_text from src/mistune/list_parser.py. -/
def _clean_list_item_text (src : List Char) (continue_width : Int) : List Char :=
  let trim_space := pyRepeat ' ' continue_width
  let lines := splitChar '\n' src
  joinSep '\n' (lines.map fun line =>
    if listStartsWith line trim_space then expand_tab (line.drop trim_space.length)
    else line)

/-- Embeds _is_loose_list from src/mistune/list_parser.py: loose when a
blank-line token appears or a second paragraph token is reached. -/
def _is_loose_list (tokens : List Token) : Bool :=
  let rec go : List Token → Nat → Bool
    | [], _ => false
    | t :: ts, n =>
        match t with
        | Token.blank_line => true
        | Token.paragraph _ => if 1 ≤ n then true else go ts (n + 1)
        | _ => go ts n
  go tokens 0

mutual

/-- Embeds _transform_tight_list from src/mistune/list_parser.py: when the
list token's tight flag is false it rewrites paragraph children of items
to block_text and recurses into nested lists; otherwise it leaves the
token unchanged. -/
def _transform_tight_list : Token → Token
  | Token.list a bu ti ch =>
      if ti then Token.list a bu ti ch
      else Token.list a bu ti (transformItems ch)
  | t => t

def transformItems : List Token → List Token
  | [] => []
  | t :: ts => transformItem t :: transformItems ts

def transformItem : Token → Token
  | Token.list_item cs => Token.list_item (transformChildren cs)
  | t => t

def transformChildren : List Token → List Token
  | [] => []
  | t :: ts => transformChild t :: transformChildren ts

def transformChild : Token → Token
  | Token.paragraph txt => Token.block_text txt
  | Token.list a bu ti ch =>
      if ti then Token.list a bu ti ch
      else Token.list a bu ti (transformItems ch)
  | t => t

end

/-- The three regex groups carried between items of one list construct. -/
def ListGroups := List Char × List Char × List Char

/-- The list token under construction in parse_list: the mutable tight
flag, the item children, and the deferred-slot bookkeeping that the
source keeps in the temporary dict keys _end_pos and _tok_index. -/
structure ListBuild where
  tight : Bool
  children : List Token
  endPos : Option Nat
  tokIndex : Nat
deriving Repr

/-- Result of one parse_list call: the updated state, the returned end
position, and — for observation — the list token the call emitted (none
when the call declined by letting a paragraph absorb the marker line). -/
structure PLRes where
  state : BlockState
  endPos : Nat
  emitted : Option Token
deriving Repr

/-- The integer value of an ordered marker (Python int(marker[:-1])). -/
def markerValue (marker : List Char) : Nat := digitsVal marker.dropLast

/-- The `ordered = len(marker) > 1` test of parse_list. -/
def markerOrdered (marker : List Char) : Bool := decide (1 < marker.length)

/-- Modelled from the spec (§4.3): a matched non-list block rule's handler
appends its token and returns the position just past the matched line;
none of the claims exercise these handlers, but the scanner consults them
in alternation order. -/
def parseMethodOther (name : String) (st : BlockState) : BlockState × Option Nat :=
  (⟨st.src, st.cursor, st.cursorMax, st.depth, st.tokens ++ [Token.other name]⟩,
   some (findLineEnd st))

/-- Embeds the line-scanning while loop of _parse_list_item (src lines
117-170), including the source's off-by-one `find_line_end() + 1` and its
inverted continuation test.  Arguments mirror the loop's free variables;
the result carries the accumulated raw text, the next item's groups when
a new marker was matched, the updated build and the updated state. -/
def scanLoop (fuel : Nat) (itemB : BulletPat) (leadingWidth otherInd : Nat)
    (contSpace text0 : List Char) (srcAcc : List Char) (prevBlank : Bool)
    (build : ListBuild) (st : BlockState) :
    List Char × Option ListGroups × ListBuild × BlockState :=
  match fuel with
  | 0 => (srcAcc, none, build, st)
  | fuel + 1 =>
    if st.cursorMax ≤ st.cursor then (srcAcc, none, build, st)
    else
      let pos := findLineEnd st + 1
      let line := getText st pos
      if blankMatch line then
        scanLoop fuel itemB leadingWidth otherInd contSpace text0 (srcAcc ++ ['\n']) true build
          ⟨st.src, pos, st.cursorMax, st.depth, st.tokens⟩
      else
        let line := expand_leading_tab line 4
        if ¬ listStartsWith line contSpace then
          if prevBlank ∧ text0 = [] ∧ stripAll srcAcc ≠ [] then (srcAcc, none, build, st)
          else
            scanLoop fuel itemB leadingWidth otherInd contSpace text0 (srcAcc ++ line) false build
              ⟨st.src, pos, st.cursorMax, st.depth, st.tokens⟩
        else
          match scMatch st.src st.cursor itemB leadingWidth otherInd with
          | some (ScRes.item g) =>
              let build := if ¬ prevBlank then { build with tight := false } else build
              (srcAcc, some ((g.spaces, g.marker, g.text) : ListGroups), build,
               ⟨st.src, g.endPos, st.cursorMax, st.depth, st.tokens⟩)
          | some ScRes.listRule => (srcAcc, none, build, st)
          | some (ScRes.otherBlock name) =>
              let tokIndex := st.tokens.length
              let r := parseMethodOther name st
              match r.2 with
              | some e =>
                  (srcAcc, none, { build with endPos := some (e - 1), tokIndex := tokIndex }, r.1)
              | none =>
                  if ¬ prevBlank then (srcAcc, none, build, st)
                  else
                    scanLoop fuel itemB leadingWidth otherInd contSpace text0 (srcAcc ++ line)
                      prevBlank build ⟨st.src, pos, st.cursorMax, st.depth, st.tokens⟩
          | none =>
              if ¬ prevBlank then (srcAcc, none, build, st)
              else
                scanLoop fuel itemB leadingWidth otherInd contSpace text0 (srcAcc ++ line)
                  prevBlank build ⟨st.src, pos, st.cursorMax, st.depth, st.tokens⟩

/-- The block-parsing recursion is tied through a fuel-indexed record of
functions so that every definition compiles by plain structural recursion
on the fuel (and therefore reduces inside the kernel): the functions of
level fuel + 1 call the functions of the level-fuel record.  The bodies
below keep the source's control flow unchanged. -/
structure Engine where
  fuelVal : Nat
  blockParseF : BlockState → List String → Nat → BlockState
  parseListF : ListMatch → BlockState → List String → Nat → PLRes
  parseListEmitF : ListMatch → BlockState → List String → Nat → ListAttrs → PLRes
  parseListItemsF : BulletPat → ListGroups → ListBuild → BlockState → List String → Nat →
    ListBuild × BlockState
  parseListItemF : BulletPat → ListGroups → ListBuild → BlockState → List String → Nat →
    Option ListGroups × ListBuild × BlockState

/-- The out-of-fuel level: every function stops without emitting. -/
def engine0 : Engine :=
  ⟨0,
   fun st _ _ => st,
   fun _ st _ _ => ⟨st, st.cursor, none⟩,
   fun _ st _ _ _ => ⟨st, st.cursor, none⟩,
   fun _ _ build st _ _ => (build, st),
   fun _ _ build st _ _ => (none, build, st)⟩

/-- Modelled from the spec (§4.3 Recursive Dispatcher): tries the active
block rules in order at each line start — blank line, the structural
block rules, then the list rule (whose handler parse_list is embedded
from src), with the plain-paragraph rule as the fallback that always
succeeds.  The dispatcher itself lives outside src; parse_listBody below
is the source embedding. -/
def blockParseBody (e : Engine) (st : BlockState) (rules : List String) (maxN : Nat) :
    BlockState :=
  if st.cursorMax ≤ st.cursor then st
  else
    let pos := findLineEnd st
    let line := getText st pos
    if blankMatch line then
      let toks := match st.tokens.getLast? with
        | some Token.blank_line => st.tokens
        | _ => st.tokens ++ [Token.blank_line]
      e.blockParseF ⟨st.src, pos, st.cursorMax, st.depth, toks⟩ rules maxN
    else if matchThematicBreak st.src st.cursor 3 then
      e.blockParseF ⟨st.src, pos, st.cursorMax, st.depth,
        st.tokens ++ [Token.other "thematic_break"]⟩ rules maxN
    else if matchFencedCode st.src st.cursor 3 then
      e.blockParseF ⟨st.src, pos, st.cursorMax, st.depth,
        st.tokens ++ [Token.other "fenced_code"]⟩ rules maxN
    else if matchAtxHeading st.src st.cursor 3 then
      e.blockParseF ⟨st.src, pos, st.cursorMax, st.depth,
        st.tokens ++ [Token.other "atx_heading"]⟩ rules maxN
    else if matchBlockQuote st.src st.cursor 3 then
      e.blockParseF ⟨st.src, pos, st.cursorMax, st.depth,
        st.tokens ++ [Token.other "block_quote"]⟩ rules maxN
    else if matchBlockHtml st.src st.cursor 3 then
      e.blockParseF ⟨st.src, pos, st.cursorMax, st.depth,
        st.tokens ++ [Token.other "block_html"]⟩ rules maxN
    else
      match (if "list" ∈ rules then matchListPattern st.src st.cursor 3 else none) with
      | some m =>
          let r := e.parseListF m st rules maxN
          e.blockParseF ⟨r.state.src, r.endPos, r.state.cursorMax, r.state.depth,
            r.state.tokens⟩ rules maxN
      | none =>
          let lineTxt := line.takeWhile (· ≠ '\n')
          let toks := match st.tokens.getLast? with
            | some (Token.paragraph t) =>
                st.tokens.dropLast ++ [Token.paragraph (t ++ '\n' :: lineTxt)]
            | _ => st.tokens ++ [Token.paragraph lineTxt]
          e.blockParseF ⟨st.src, pos, st.cursorMax, st.depth, toks⟩ rules maxN

/-- Embeds parse_list from src/mistune/list_parser.py: the two
paragraph-interruption early returns, then the token construction and
item loop via the emitting tail. -/
def parse_listBody (e : Engine) (m : ListMatch) (st : BlockState) (rules : List String)
    (maxN : Nat) : PLRes :=
  match (if blankOnly m.text then appendParagraph st else none) with
  | some (st1, ep) => ⟨st1, ep, none⟩
  | none =>
      if markerOrdered m.marker ∧ markerValue m.marker ≠ 1 then
        match appendParagraph st with
        | some (st1, ep) => ⟨st1, ep, none⟩
        | none =>
            e.parseListEmitF m st rules maxN
              ⟨st.depth, markerOrdered m.marker, some (markerValue m.marker)⟩
      else e.parseListEmitF m st rules maxN ⟨st.depth, markerOrdered m.marker, none⟩

/-- The emitting tail of parse_list (src lines 53-74): advance the cursor
past the marker line, narrow the rules at the depth ceiling, run the item
loop, apply the tightness transform and emit the token (inserting it at
the deferred slot when a following block ended the construct). -/
def parseListEmitBody (e : Engine) (m : ListMatch) (st : BlockState) (rules : List String)
    (maxN : Nat) (attrs : ListAttrs) : PLRes :=
  let st1 : BlockState := ⟨st.src, m.endPos + 1, st.cursorMax, st.depth, st.tokens⟩
  let rules1 := if maxN - 1 ≤ st.depth then rules.erase "list" else rules
  let bulletC := (m.marker.getLast?).getD ' '
  let bs := e.parseListItemsF (_get_list_bullet bulletC)
      ((m.spaces, m.marker, m.text) : ListGroups) ⟨true, [], none, 0⟩ st1 rules1 maxN
  let build := bs.1
  let st2 := bs.2
  let tok := _transform_tight_list (Token.list attrs bulletC build.tight build.children)
  match build.endPos with
  | some ep =>
      ⟨⟨st2.src, st2.cursor, st2.cursorMax, st2.depth,
        insertAt build.tokIndex tok st2.tokens⟩, ep, some tok⟩
  | none =>
      ⟨⟨st2.src, st2.cursor, st2.cursorMax, st2.depth, st2.tokens ++ [tok]⟩,
       st2.cursor, some tok⟩

/-- The `while groups:` loop of parse_list (src lines 63-64). -/
def parseListItemsBody (e : Engine) (itemB : BulletPat) (groups : ListGroups)
    (build : ListBuild) (st : BlockState) (rules : List String) (maxN : Nat) :
    ListBuild × BlockState :=
  match e.parseListItemF itemB groups build st rules maxN with
  | (some g, build1, st1) => e.parseListItemsF itemB g build1 st1 rules maxN
  | (none, build1, st1) => (build1, st1)

/-- Embeds _parse_list_item from src/mistune/list_parser.py: computes the
continuation width, runs the line scanner, cleans and recursively parses
the item's text, and updates the tight flag and children. -/
def parseListItemBody (e : Engine) (itemB : BulletPat) (groups : ListGroups)
    (build : ListBuild) (st : BlockState) (rules : List String) (maxN : Nat) :
    Option ListGroups × ListBuild × BlockState :=
  let (spaces, marker, text) := groups
  let leading_width := marker.length + spaces.length
  let (text, continue_width) := _compile_continue_width text leading_width
  let otherInd := if leading_width ≤ 3 then leading_width else 3
  let continue_space := pyRepeat ' ' (continue_width + 1)
  match scanLoop e.fuelVal itemB leading_width otherInd continue_space text [] false build st with
  | (srcAcc, nextg, build1, st1) =>
      let text := text ++ _clean_list_item_text srcAcc (continue_width - 1)
      let child := e.blockParseF (childState st1 (strip_end text)) rules maxN
      let build2 :=
        if ¬ build1.tight ∨ _is_loose_list child.tokens then { build1 with tight := false }
        else build1
      let build3 := { build2 with children := build2.children ++ [Token.list_item child.tokens] }
      (nextg, build3, st1)

/-- One fuel level: each function runs its body against the previous
level's record. -/
def engineStep (e : Engine) : Engine :=
  ⟨e.fuelVal + 1, blockParseBody e, parse_listBody e, parseListEmitBody e,
   parseListItemsBody e, parseListItemBody e⟩

/-- The fuel-indexed tower of parsing functions. -/
def engine : Nat → Engine
  | 0 => engine0
  | fuel + 1 => engineStep (engine fuel)

/-- The dispatcher at a given fuel (see blockParseBody). -/
def blockParse (fuel : Nat) (st : BlockState) (rules : List String) (maxN : Nat) :
    BlockState :=
  (engine fuel).blockParseF st rules maxN

/-- parse_list at a given fuel (see parse_listBody). -/
def parse_list (fuel : Nat) (m : ListMatch) (st : BlockState) (rules : List String)
    (maxN : Nat) : PLRes :=
  (engine fuel).parseListF m st rules maxN

/-- The emitting tail at a given fuel (see parseListEmitBody). -/
def parseListEmit (fuel : Nat) (m : ListMatch) (st : BlockState) (rules : List String)
    (maxN : Nat) (attrs : ListAttrs) : PLRes :=
  (engine fuel).parseListEmitF m st rules maxN attrs

/-- Modelled from the spec: the default active block rule set; only
membership of the list rule matters to the embedded code, which narrows
the set with `rules.remove` at the depth ceiling. -/
def defaultRules : List String :=
  ["blank_line", "atx_heading", "fenced_code", "thematic_break",
   "block_quote", "block_html", "list", "paragraph"]

/-- Parse a whole document with the default rules and the default
nesting ceiling of 6. -/
def topParse (s : String) : List Token :=
  (blockParse 99 (initState s.toList) defaultRules 6).tokens

/-- Number of list tokens at the top level of a token sequence. -/
def listTokenCount (toks : List Token) : Nat :=
  toks.countP fun t => match t with | Token.list _ _ _ _ => true | _ => false

/-- The parent information a rendered list token can carry: either the
well-formed dict built by the per-flavour renderers (leading text plus a
tight flag), or — as the source's item-assignment writes — a bare list
item, which lacks the tight key the reader requires (modelled as a
distinct constructor whose read fails). -/
inductive RParent where
  | item
  | info (leading : List Char) (tight : Bool)
deriving Repr

/-- The rendering recursion, tied through a fuel-indexed record of
functions for the same reason as the parsing Engine: every definition
compiles by structural recursion on the fuel and reduces in the kernel. -/
structure REngine where
  renderTokenF : Option RParent → Token → Option (List Char)
  render_listF : Option RParent → ListAttrs → Char → Bool → List Token → Option (List Char)
  renderOrderedListF : Char → Bool → Option Nat → List Token → Option (List Char)
  renderOrderedGoF : Char → Bool → Nat → List Token → Option (List Char)
  renderUnorderedListF : Char → Bool → List Token → Option (List Char)
  renderItemsGoF : List Char → Bool → List Token → Option (List Char)
  renderListItemF : List Char → Bool → Token → Option (List Char)
  renderItemChildrenF : List Token → Option (List Char)

/-- The out-of-fuel rendering level: everything fails. -/
def rengine0 : REngine :=
  ⟨fun _ _ => none, fun _ _ _ _ _ => none, fun _ _ _ _ => none, fun _ _ _ _ => none,
   fun _ _ _ => none, fun _ _ _ => none, fun _ _ _ => none, fun _ => none⟩

/-- Modelled from the spec: the external renderer's render_token dispatch
for the token types reachable from a list tree — a paragraph
re-serializes as its text followed by a blank line, a block_text as its
text and a newline, a blank line as nothing; list tokens go to the
embedded render_list from src/mistune/renderers/_list.py. -/
def renderTokenBody (e : REngine) (parent? : Option RParent) (tok : Token) :
    Option (List Char) :=
  match tok with
  | Token.list a bu ti ch => e.render_listF parent? a bu ti ch
  | Token.paragraph t => some (t ++ ['\n', '\n'])
  | Token.block_text t => some (t ++ ['\n'])
  | Token.blank_line => some []
  | Token.list_item _ => none
  | Token.other _ => some []

/-- Embeds render_list from src/mistune/renderers/_list.py: unordered
tokens are sent to the ordered-list renderer and vice versa, a parent's
tight flag selects the bare text (when not tight) or text plus newline —
a parent that is a raw item has no tight flag to read, which fails — and
with no parent the trailing newline is stripped. -/
def render_listBody (e : REngine) (parent? : Option RParent) (a : ListAttrs) (bu : Char)
    (ti : Bool) (ch : List Token) : Option (List Char) :=
  match (if ¬ a.ordered then e.renderOrderedListF bu ti a.start ch
         else e.renderUnorderedListF bu ti ch) with
  | none => none
  | some text =>
      match parent? with
      | none => some (strip_end text)
      | some RParent.item => none
      | some (RParent.info _ pt) => if ¬ pt then some text else some (text ++ ['\n'])

/-- Embeds _render_ordered_list from src/mistune/renderers/_list.py. -/
def renderOrderedListBody (e : REngine) (bu : Char) (ti : Bool) (start? : Option Nat)
    (items : List Token) : Option (List Char) :=
  e.renderOrderedGoF bu ti (start?.getD 1) items

/-- The numbering loop of _render_ordered_list: each leading uses
start + 1 and the counter then steps by two, and the parent dict carries
the negated tight flag, as in the source. -/
def renderOrderedGoBody (e : REngine) (bu : Char) (ti : Bool) (start : Nat)
    (items : List Token) : Option (List Char) :=
  match items with
  | [] => some []
  | item :: rest =>
      let leading := natChars (start + 1) ++ [bu, ' ']
      match e.renderListItemF leading (¬ ti) item with
      | none => none
      | some s =>
          match e.renderOrderedGoF bu ti (start + 2) rest with
          | none => none
          | some r => some (s ++ r)

/-- Embeds _render_unordered_list from src/mistune/renderers/_list.py:
the leading is a space followed by the bullet, the parent dict carries
the negated tight flag, and the first item is skipped. -/
def renderUnorderedListBody (e : REngine) (bu : Char) (ti : Bool)
    (items : List Token) : Option (List Char) :=
  e.renderItemsGoF ([' ', bu]) (¬ ti) (items.drop 1)

/-- The item loop of _render_unordered_list. -/
def renderItemsGoBody (e : REngine) (leading : List Char) (pt : Bool)
    (items : List Token) : Option (List Char) :=
  match items with
  | [] => some []
  | item :: rest =>
      match e.renderListItemF leading pt item with
      | none => none
      | some s =>
          match e.renderItemsGoF leading pt rest with
          | none => none
          | some r => some (s ++ r)

/-- Embeds _render_list_item from src/mistune/renderers/_list.py: nested
lists get the raw item attached as their parent, a blank-line child adds
a space and is still rendered, the kept line is the last one instead of
the first, the continuation indent is one wider than the leading, and the
leading is emitted reversed. -/
def renderListItemBody (e : REngine) (leading : List Char) (_pt : Bool)
    (item : Token) : Option (List Char) :=
  match item with
  | Token.list_item cs =>
      match e.renderItemChildrenF cs with
      | none => none
      | some text =>
          let lines := splitlines text
          let base := ((lines.getLast?).getD []) ++ ['\n']
          let pre := List.replicate (leading.length + 1) ' '
          let tail := (lines.drop 1).foldl
            (fun acc l => acc ++ (if l ≠ [] then pre ++ l ++ ['\n'] else ['\n'])) []
          some (leading.reverse ++ base ++ tail)
  | _ => none

/-- The child loop of _render_list_item. -/
def renderItemChildrenBody (e : REngine) (cs : List Token) : Option (List Char) :=
  match cs with
  | [] => some []
  | tok :: rest =>
      let sp : List Char := match tok with | Token.blank_line => [' '] | _ => []
      let p? : Option RParent :=
        match tok with | Token.list _ _ _ _ => some RParent.item | _ => none
      match e.renderTokenF p? tok with
      | none => none
      | some s =>
          match e.renderItemChildrenF rest with
          | none => none
          | some r => some (sp ++ s ++ r)

/-- One rendering fuel level. -/
def rengineStep (e : REngine) : REngine :=
  ⟨renderTokenBody e, render_listBody e, renderOrderedListBody e, renderOrderedGoBody e,
   renderUnorderedListBody e, renderItemsGoBody e, renderListItemBody e,
   renderItemChildrenBody e⟩

/-- The fuel-indexed tower of rendering functions. -/
def rengine : Nat → REngine
  | 0 => rengine0
  | fuel + 1 => rengineStep (rengine fuel)

/-- render_token at a given fuel (see renderTokenBody). -/
def renderToken (fuel : Nat) (parent? : Option RParent) (tok : Token) :
    Option (List Char) :=
  (rengine fuel).renderTokenF parent? tok

/-- Re-serialize a token sequence with the list renderer (tokens at the
document level have no parent). -/
def renderDoc (fuel : Nat) : List Token → Option (List Char)
  | [] => some []
  | t :: ts =>
      match renderToken fuel none t with
      | none => none
      | some s =>
          match renderDoc fuel ts with
          | none => none
          | some r => some (s ++ r)

/-- Word characters of the directive grammar `[a-zA-Z0-9_-]`. -/
def isWordChar (c : Char) : Bool := c.isAlphanum ∨ c = '_' ∨ c = '-'

/-- The four groups captured by _directive_re in
src/mistune/directives/_fenced.py. -/
structure DirHeader where
  dtype : List Char
  title : List Char
  options : List Char
  content : List Char
deriving Repr, DecidableEq

/-- The option-line group `(?:\:[a-zA-Z0-9_-]+\: *[^\n]*\n+)*`: consume
greedy option lines, returning the consumed raw text and the rest. -/
def takeOptionLines (fuel : Nat) (t : List Char) : List Char × List Char :=
  match fuel with
  | 0 => ([], t)
  | fuel + 1 =>
    match t with
    | ':' :: rest =>
        let key := rest.takeWhile isWordChar
        if key = [] then ([], t)
        else
          match rest.drop key.length with
          | ':' :: rest2 =>
              let sp := rest2.takeWhile (· = ' ')
              let v := (rest2.drop sp.length).takeWhile (· ≠ '\n')
              match rest2.drop (sp.length + v.length) with
              | '\n' :: rest3 =>
                  let nls := rest3.takeWhile (· = '\n')
                  let consumed := ':' :: key ++ ':' :: sp ++ v ++ '\n' :: nls
                  let (more, rest4) := takeOptionLines fuel (rest3.drop nls.length)
                  (consumed ++ more, rest4)
              | _ => ([], t)
          | _ => ([], t)
    | _ => ([], t)

/-- The text group `(?:[^\n]*\n+)*`: the run of complete lines, i.e.
everything up to and including the last newline. -/
def takeTextLines (t : List Char) : List Char :=
  (t.reverse.dropWhile (· ≠ '\n')).reverse

/-- Anchored match of _directive_re from src/mistune/directives/_fenced.py:
`{type}` then optional spaces and a title to the line end, option lines,
optional blank lines, then the content lines. -/
def directiveMatchAt (t : List Char) : Option DirHeader :=
  match t with
  | '{' :: rest =>
      let name := rest.takeWhile isWordChar
      if name = [] then none
      else
        match rest.drop name.length with
        | '}' :: rest2 =>
            let sp := rest2.takeWhile (· = ' ')
            let title := (rest2.drop sp.length).takeWhile (· ≠ '\n')
            let rest3 :=
              match rest2.drop (sp.length + title.length) with
              | '\n' :: r => r
              | r => r
            let (opts, rest4) := takeOptionLines rest3.length rest3
            let rest5 := rest4.dropWhile (· = '\n')
            some ⟨name, title, opts, takeTextLines rest5⟩
        | _ => none
  | _ => none

/-- `_directive_re.search`: the first position whose suffix matches the
anchored directive grammar (the source's mutation replaced the anchored
`match` with this `search`). -/
def directiveSearch : List Char → Option DirHeader
  | [] => none
  | c :: rest =>
      match directiveMatchAt (c :: rest) with
      | some h => some h
      | none => directiveSearch rest

/-- All line-start positions of `src` at or after `pos` (where the
multiline `^` anchor can match). -/
def lineStartsFrom (src : List Char) (pos : Nat) : List Nat :=
  (List.range (src.length + 1)).filter fun p =>
    pos ≤ p ∧ (p = 0 ∨ src.get? (p - 1) = some '\n')

/-- The full (newline-free) line of `src` starting at position `p`. -/
def lineAt (src : List Char) (p : Nat) : List Char :=
  (src.drop p).takeWhile (· ≠ '\n')

/-- Does a line match the closing-fence pattern built in
_process_directive: at most two leading spaces, at least `minRun`
repetitions of the marker character, then only horizontal blanks. -/
def isEndFenceLine (line : List Char) (c : Char) (minRun : Nat) : Bool :=
  let sp := line.takeWhile (· = ' ')
  let run := (line.drop sp.length).takeWhile (· = c)
  sp.length ≤ 2 && minRun ≤ run.length &&
    (line.drop (sp.length + run.length)).all isBlankChar

/-- `_end_re.search(state.src, cursor_start)`: the start offset of the
first line at or after `cursorStart` matching the closing-fence pattern. -/
def fencedEndSearch (src : List Char) (c : Char) (minRun : Nat) (cursorStart : Nat) : Option Nat :=
  (lineStartsFrom src cursorStart).find? fun p => isEndFenceLine (lineAt src p) c minRun

/-- Embeds FencedDirective._process_directive from
src/mistune/directives/_fenced.py, with its mutations: the capture
window starts at `start - len(marker)`, the closing fence must repeat the
marker at least `len(marker) + 1` times, a found close contributes its
start offset (and a missing one `cursor_max - 1`) as the returned cursor,
the header grammar is searched anywhere in the window, and a failed
search returns the integer 0 rather than the decline value.  The final
`self.parse_method(state, m, block)` call (whose receiver lives outside
src) is modelled by returning the matched header alongside the cursor
result. -/
def _process_directive (src marker : List Char) (start cursorMax : Nat) :
    Option Int × Option DirHeader :=
  let mlen := marker.length
  let cursor_start : Int := (start : Int) - (mlen : Int)
  let cs := cursor_start.toNat
  let (text, end_pos) :=
    match fencedEndSearch src (marker.headD ' ') (mlen + 1) cs with
    | some p => (pySlice src cs p, (p : Int))
    | none => (src.drop cs, (cursorMax : Int) - 1)
  match directiveSearch text with
  | none => (some 0, none)
  | some hdr => (some end_pos, some hdr)

/-- Embeds the directive_pattern compiled in FencedDirective.__init__:
a run of at least three marker characters immediately followed by a
`{type}` tag, anchored at a line start; yields the marker run and the
match end offset. -/
def matchDirectiveOpen (markers : List Char) (src : List Char) (pos : Nat) :
    Option (List Char × Nat) :=
  let run := (src.drop pos).takeWhile (fun c => markers.contains c)
  if run.length < 3 then none
  else
    match src.drop (pos + run.length) with
    | '{' :: rest =>
        let name := rest.takeWhile isWordChar
        if name = [] then none
        else
          match rest.drop name.length with
          | '}' :: _ => some (run, pos + run.length + name.length + 2)
          | _ => none
    | _ => none

/-- Embeds FencedDirective.parse_directive from
src/mistune/directives/_fenced.py: on a directive-pattern match it runs
_process_directive with the marker group and the match end offset. -/
def parse_directive (markers src : List Char) (pos cursorMax : Nat) :
    Option (Option Int × Option DirHeader) :=
  match matchDirectiveOpen markers src pos with
  | none => none
  | some (marker, mend) => some (_process_directive src marker mend cursorMax)

/-- Number of item children of the leading list token, if any. -/
def firstListItemCount (toks : List Token) : Option Nat :=
  match toks with
  | Token.list _ _ _ ch :: _ => some ch.length
  | _ => none

/-- The tightness transform maps a list token to a list token with the
same attrs, bullet and tight flag, whatever it does to the children. -/
theorem transform_keeps_list_shape (a : ListAttrs) (bu : Char) (ti : Bool)
    (ch : List Token) :
    ∃ ch2, _transform_tight_list (Token.list a bu ti ch) = Token.list a bu ti ch2 := by
  show ∃ ch2,
      (if ti then Token.list a bu ti ch else Token.list a bu ti (transformItems ch)) =
        Token.list a bu ti ch2
  by_cases hti : ti
  · exact ⟨ch, by simp [hti]⟩
  · exact ⟨transformItems ch, by simp [hti]⟩

/-- One emitting-tail run preserves the attrs record it was given: the
item loop only touches the tight flag, the children and the deferred
slot, and the transform keeps the attrs (transform_keeps_list_shape). -/
theorem parseListEmitBody_emitted_attrs (e : Engine) (m : ListMatch) (st : BlockState)
    (rules : List String) (maxN : Nat) (attrs a : ListAttrs) (bu : Char)
    (ti : Bool) (ch : List Token)
    (h : (parseListEmitBody e m st rules maxN attrs).emitted = some (Token.list a bu ti ch)) :
    a = attrs := by
  rw [parseListEmitBody] at h
  obtain ⟨ch2, hsh⟩ :=
    transform_keeps_list_shape attrs ((m.marker.getLast?).getD ' ')
      (e.parseListItemsF (_get_list_bullet ((m.marker.getLast?).getD ' '))
        ((m.spaces, m.marker, m.text) : ListGroups) ⟨true, [], none, 0⟩
        ⟨st.src, m.endPos + 1, st.cursorMax, st.depth, st.tokens⟩
        (if maxN - 1 ≤ st.depth then rules.erase "list" else rules) maxN).1.tight
      (e.parseListItemsF (_get_list_bullet ((m.marker.getLast?).getD ' '))
        ((m.spaces, m.marker, m.text) : ListGroups) ⟨true, [], none, 0⟩
        ⟨st.src, m.endPos + 1, st.cursorMax, st.depth, st.tokens⟩
        (if maxN - 1 ≤ st.depth then rules.erase "list" else rules) maxN).1.children
  split at h <;>
    · rw [hsh] at h
      simp only [PLRes.emitted] at h
      rw [Option.some_inj] at h
      cases h
      rfl

/-- The emitting tail at any fuel preserves the attrs record. -/
theorem parseListEmit_emitted_attrs (fuel : Nat) (m : ListMatch) (st : BlockState)
    (rules : List String) (maxN : Nat) (attrs a : ListAttrs) (bu : Char)
    (ti : Bool) (ch : List Token)
    (h : (parseListEmit fuel m st rules maxN attrs).emitted = some (Token.list a bu ti ch)) :
    a = attrs := by
  cases fuel with
  | zero => simp [parseListEmit, engine, engine0] at h
  | succ n => exact parseListEmitBody_emitted_attrs (engine n) m st rules maxN attrs a bu ti ch h

/-- C10: a list token emitted by parse_list carries the start attr
exactly when the marker is ordered and its integer value differs from 1;
lists opened by a `1.` or `1)` marker carry none, and unordered lists
never carry one.  The attrs record is fixed before the item loop runs and
neither the loop nor the tightness transform touches it. -/
theorem c10_start_attr_iff_marker_not_one (fuel : Nat) (m : ListMatch) (st : BlockState)
    (rules : List String) (maxN : Nat) (a : ListAttrs) (bu : Char) (ti : Bool)
    (ch : List Token)
    (h : (parse_list fuel m st rules maxN).emitted = some (Token.list a bu ti ch)) :
    a.ordered = markerOrdered m.marker ∧
    a.start = if markerOrdered m.marker ∧ markerValue m.marker ≠ 1
              then some (markerValue m.marker) else none := by
  cases fuel with
  | zero => simp [parse_list, engine, engine0] at h
  | succ n =>
    have h2 : (parse_listBody (engine n) m st rules maxN).emitted =
        some (Token.list a bu ti ch) := h
    rw [parse_listBody] at h2
    split at h2
    · simp only [PLRes.emitted] at h2
      exact absurd h2 (by simp)
    · split at h2
      · rename_i hc
        split at h2
        · simp only [PLRes.emitted] at h2
          exact absurd h2 (by simp)
        · have ha := parseListEmit_emitted_attrs n m st rules maxN _ a bu ti ch h2
          subst ha
          exact ⟨rfl, by simp [hc]⟩
      · rename_i hc
        have ha := parseListEmit_emitted_attrs n m st rules maxN _ a bu ti ch h2
        subst ha
        exact ⟨rfl, by simp [hc]⟩

/-- Witness for C10 at the marker `5.` of the input `5. a`: parse_list
emits a list token whose attrs are depth 0, ordered, start 5. -/
theorem c10_start_attr_iff_marker_not_one_witness :
    (⟨0, true, some 5⟩ : ListAttrs).ordered = markerOrdered "5.".toList ∧
    (⟨0, true, some 5⟩ : ListAttrs).start =
      (if markerOrdered "5.".toList ∧ markerValue "5.".toList ≠ 1
       then some (markerValue "5.".toList) else none) :=
  c10_start_attr_iff_marker_not_one 9 ⟨[], "5.".toList, " a".toList, 4⟩
    (initState "5. a\n".toList) defaultRules 6 ⟨0, true, some 5⟩ '.' true
    [Token.list_item [Token.paragraph " a".toList]] (by rfl)

/-- C1: the round trip fails for tight lists.  The tight one-item list
parsed from `- a` re-serializes — through render_list's swapped
ordered/unordered dispatch, the ordered numbering applied from start + 1
and the reversed leading — to the text ` -2`, which re-parses to no list
token at all, so item count and nesting are not preserved. -/
theorem c1_tight_list_round_trip_fails :
    topParse "- a\n" =
      [Token.list ⟨0, false, none⟩ '-' true
        [Token.list_item [Token.paragraph " a".toList]]] ∧
    renderDoc 30 (topParse "- a\n") = some " -2".toList ∧
    listTokenCount (topParse " -2") = 0 :=
  ⟨rfl, rfl, rfl⟩

/-- C2: forward progress fails for the fenced-directive rule.  On the
input `x`, a blank line, then `:::{note} hi` and `body`, the directive
pattern matches at position 3, yet the handler returns the cursor 0 —
a successful (non-none) result that is not greater than the match start,
because the header search fails and the code returns the integer 0
instead of the decline value. -/
theorem c2_directive_match_returns_zero_cursor :
    matchDirectiveOpen ":".toList "x\n\n:::{note} hi\nbody\n".toList 3 =
      some (":::".toList, 12) ∧
    parse_directive ":".toList "x\n\n:::{note} hi\nbody\n".toList 3 21 =
      some (some 0, none) :=
  ⟨rfl, rfl⟩

/-- C3: the emitted tight flag contradicts the tightness law.  For the
input `- a` and ` _ b` on the next line, the scanner accepts the second
line as a further item of the same construct (the mutated bullet map
sends `-` to `_`), no blank line separates the two items and each holds a
single paragraph-class block, yet the inverted `if not prev_blank_line`
clears the tight flag, so the token is emitted loose where the law
requires tight. -/
theorem c3_tight_flag_contradicts_tightness_law :
    topParse "- a\n _ b\n" =
      [Token.list ⟨0, false, none⟩ '-' false
        [Token.list_item [Token.block_text " a".toList],
         Token.list_item [Token.block_text " b".toList]]] :=
  rfl

/-- C4: a differing bullet literal does not start a sibling list.  For
`- a` then `* b`, the mutated bullet map makes the item pattern `_`, the
inverted continuation test absorbs the `* b` line into the first item's
raw text, and the recursive item parse turns it into a list nested inside
that item: the result is one top-level list token, not two siblings —
and the same happens to the same-bullet input `- a` / `- b`, which also
fails to become a second item. -/
theorem c4_differing_bullet_nests_instead_of_sibling :
    topParse "- a\n* b\n" =
      [Token.list ⟨0, false, none⟩ '-' true
        [Token.list_item
          [Token.paragraph " a".toList,
           Token.list ⟨1, false, none⟩ '*' true
             [Token.list_item [Token.paragraph " b".toList]]]]] ∧
    listTokenCount (topParse "- a\n* b\n") = 1 ∧
    firstListItemCount (topParse "- a\n- b\n") = some 1 :=
  ⟨rfl, rfl, rfl⟩

/-- C5: an equal-length fence line never closes the construct.  The
closing-fence search built in _process_directive demands at least
mlen + 1 marker repetitions, so on `::::{outer}` / `::::{inner}` / `body`
/ `::::` it finds no close (while under the claimed at-least-mlen rule
the pure `::::` line at offset 29 is a close), the body runs to the end
of input and, through the misaligned capture window, the construct is
accepted as a directive of type `inner`. -/
theorem c5_equal_length_fence_never_closes :
    fencedEndSearch "::::{outer}\n::::{inner}\nbody\n::::".toList ':' 5 7 = none ∧
    fencedEndSearch "::::{outer}\n::::{inner}\nbody\n::::".toList ':' 4 7 = some 29 ∧
    parse_directive ":".toList "::::{outer}\n::::{inner}\nbody\n::::".toList 0 33 =
      some (some 32, some ⟨"inner".toList, [], [], "body\n".toList⟩) :=
  ⟨rfl, rfl, rfl⟩

/-- C6: a failed header sub-grammar does not yield the no-match signal.
On `:::{note} hi` / `body` the captured window (misaligned by the
mutated `start - len(marker)`) contains no directive header, and the
matcher returns the integer cursor 0 — a some-value under its
Optional-int contract — instead of declining with none. -/
theorem c6_header_failure_returns_zero_not_none :
    parse_directive ":".toList ":::{note} hi\nbody\n".toList 0 18 =
      some (some 0, none) :=
  rfl

/-- C7: the three-item ordered input collapses to one item.  For
`5. a` / `6. b` / `7. c` the emitted token does keep start 5, but the
inverted continuation test swallows the following marker lines into the
first item's text, where the ordered-cannot-interrupt rule merges them
into its paragraph, leaving one item instead of three; re-serializing the
token yields the empty text (ordered lists are dispatched to the
unordered renderer, which drops the first — here only — item), with no
sequential numbering at all. -/
theorem c7_ordered_items_collapse_to_one :
    topParse "5. a\n6. b\n7. c\n" =
      [Token.list ⟨0, true, some 5⟩ '.' true
        [Token.list_item [Token.paragraph " a\n6. b\n7. c".toList]]] ∧
    renderDoc 30 (topParse "5. a\n6. b\n7. c\n") = some [] :=
  ⟨rfl, rfl⟩

/-- C8: the continuation width subtracts instead of adding.  For the
marker-line text ` a` with leading width 1 the source returns width
1 - 1 = 0 where the claim requires 1 + 1 = 2; for a first content line
of seven spaces (within the indented-code clamp) it returns 1 - 2 = -1,
a negative width, where the claim requires a positive clamped value. -/
theorem c8_continue_width_subtracted :
    _compile_continue_width " a".toList 1 = (" a\n".toList, 0) ∧
    _compile_continue_width "       x".toList 1 = ("      x\n".toList, -1) :=
  ⟨rfl, rfl⟩

/-- C9: the tightness-propagation pass is inverted.  A tight list keeps
its paragraph children unchanged, while a loose list has them rewritten
to block_text — the opposite of the claim, which requires the rewrite
exactly for tight lists. -/
theorem c9_transform_rewrites_loose_not_tight :
    _transform_tight_list
        (Token.list ⟨0, false, none⟩ '-' true
          [Token.list_item [Token.paragraph "a".toList]]) =
      Token.list ⟨0, false, none⟩ '-' true
        [Token.list_item [Token.paragraph "a".toList]] ∧
    _transform_tight_list
        (Token.list ⟨0, false, none⟩ '-' false
          [Token.list_item [Token.paragraph "a".toList]]) =
      Token.list ⟨0, false, none⟩ '-' false
        [Token.list_item [Token.block_text "a".toList]] :=
  ⟨rfl, rfl⟩
